import Mathlib

/-!
Verification development for the yt_downloader repository
(src/yt_download.py and src/youtube_downloader_ui.py).

The external video library (pytubefix), the filesystem and the network are
modelled by an `Oracle` of functions that may fail (`Except`); the decision
and bookkeeping logic of the repository (stream-quality selection with
fallback, filename sanitisation, batch iteration with counters, packaging)
is embedded as executable Lean definitions translated line by line from the
Python source.
-/

namespace Yt

/-- One stream candidate offered by the video library for a resolved video.
`progressive` is pytubefix's `is_progressive`; `subtype` is the container
(`file_extension` filter); `resolution` is the label such as `"720p"`;
the two track flags model `includes_video_track` / `includes_audio_track`
(pytubefix's `only_video=True` filter means video and not audio, and
`adaptive=True` means not progressive). -/
structure Stream where
  progressive : Bool
  subtype : String
  resolution : String
  includesVideoTrack : Bool
  includesAudioTrack : Bool
deriving DecidableEq, Repr

/-- Numeric value of a resolution label, as pytubefix's
`order_by('resolution')` computes it: the concatenation of the digit
characters of the label read as a decimal integer
(`int("".join(filter(str.isdigit, s.resolution)))`); labels in this domain
always contain digits. -/
def resValue (r : String) : Nat :=
  r.foldl (fun n c => if c.isDigit then n * 10 + (c.toNat - 48) else n) 0

/-- Comparison of streams by the numeric value of their resolution label:
the sort key of `order_by('resolution')`. -/
def resLE (a b : Stream) : Prop :=
  resValue a.resolution ≤ resValue b.resolution

instance : DecidableRel resLE :=
  fun a b => inferInstanceAs (Decidable (resValue a.resolution ≤ resValue b.resolution))

instance : IsTotal Stream resLE :=
  ⟨fun _ _ => Nat.le_total _ _⟩

instance : IsTrans Stream resLE :=
  ⟨fun _ _ _ => Nat.le_trans⟩

/-- Stable ascending sort by resolution value: `order_by('resolution')`
(Python's `sorted` is stable; insertion sort is the stable sort of the same
key order). -/
def orderByResolutionAsc (l : List Stream) : List Stream :=
  List.insertionSort resLE l

/-- `order_by('resolution').desc().first()`: reverse of the stable ascending
sort, then the head (`None`, i.e. `none`, when the list is empty). -/
def firstDesc (l : List Stream) : Option Stream :=
  (orderByResolutionAsc l).reverse.head?

theorem mem_orderByResolutionAsc {l : List Stream} {s : Stream} :
    s ∈ orderByResolutionAsc l ↔ s ∈ l :=
  List.mem_insertionSort resLE

theorem firstDesc_eq_none_iff {l : List Stream} : firstDesc l = none ↔ l = [] := by
  unfold firstDesc
  rw [List.head?_eq_none_iff, List.reverse_eq_nil_iff]
  constructor
  · intro h
    have hp : l.Perm [] := by
      have := (List.perm_insertionSort resLE l).symm
      rw [show List.insertionSort resLE l = [] from h] at this
      exact this
    exact hp.eq_nil
  · intro h
    simp [orderByResolutionAsc, h]

theorem firstDesc_spec {l : List Stream} {s : Stream} (h : firstDesc l = some s) :
    s ∈ l ∧ ∀ t ∈ l, resValue t.resolution ≤ resValue s.resolution := by
  have hsorted : List.Sorted resLE (orderByResolutionAsc l) :=
    List.sorted_insertionSort resLE l
  have hrevpw : List.Pairwise (fun a b => resLE b a) (orderByResolutionAsc l).reverse :=
    List.pairwise_reverse.mpr hsorted
  unfold firstDesc at h
  cases hrev : (orderByResolutionAsc l).reverse with
  | nil => rw [hrev] at h; simp at h
  | cons x tail =>
    rw [hrev] at h hrevpw
    simp only [List.head?_cons, Option.some.injEq] at h
    rw [h] at hrev hrevpw
    have hmem : s ∈ l := by
      have hs : s ∈ (orderByResolutionAsc l).reverse := by
        rw [hrev]; exact List.mem_cons_self _ _
      exact mem_orderByResolutionAsc.mp (List.mem_reverse.mp hs)
    refine ⟨hmem, fun t ht => ?_⟩
    have htrev : t ∈ (orderByResolutionAsc l).reverse :=
      List.mem_reverse.mpr (mem_orderByResolutionAsc.mpr ht)
    rw [hrev] at htrev
    rcases List.mem_cons.mp htrev with heq | htail
    · rw [heq]
    · exact List.rel_of_pairwise_cons hrevpw htail

theorem firstDesc_filter_spec (p : Stream → Bool) (l : List Stream) {s : Stream}
    (h : firstDesc (l.filter p) = some s) :
    s ∈ l ∧ p s = true ∧
      ∀ t ∈ l, p t = true → resValue t.resolution ≤ resValue s.resolution := by
  obtain ⟨hmem, hmax⟩ := firstDesc_spec h
  obtain ⟨hl, hp⟩ := List.mem_filter.mp hmem
  exact ⟨hl, hp, fun t ht hpt => hmax t (List.mem_filter.mpr ⟨ht, hpt⟩)⟩

/-- `filter(progressive=True, file_extension='mp4')` membership test. -/
def isProgMp4 (s : Stream) : Bool :=
  s.progressive && s.subtype == "mp4"

/-- `filter(adaptive=True, file_extension='mp4', only_video=True)` membership
test: adaptive is the negation of progressive, and `only_video` means a video
track without an audio track. -/
def isAdaptiveVideoOnlyMp4 (s : Stream) : Bool :=
  !s.progressive && s.subtype == "mp4" && s.includesVideoTrack && !s.includesAudioTrack

/-- Stream selection of the form (Gradio) variant, youtube_downloader_ui.py
lines 30-35 and 101-106: for `highest`, the max-resolution progressive mp4;
otherwise the first progressive mp4 with the exact resolution label, falling
back to the max-resolution progressive mp4 when none matches. -/
def selectStreamUI (streams : List Stream) (quality : String) : Option Stream :=
  if quality = "highest" then
    firstDesc (streams.filter isProgMp4)
  else
    match (streams.filter (fun s => isProgMp4 s && s.resolution == quality)).head? with
    | some s => some s
    | none => firstDesc (streams.filter isProgMp4)

/-- Stream selection of the CLI batch variant, yt_download.py lines 14-25:
exact-resolution progressive mp4, then max-resolution progressive mp4, then
max-resolution adaptive video-only mp4. -/
def selectStreamCLI (streams : List Stream) (quality : String) : Option Stream :=
  match (streams.filter (fun s => isProgMp4 s && s.resolution == quality)).head? with
  | some s => some s
  | none =>
    match firstDesc (streams.filter isProgMp4) with
    | some s => some s
    | none => firstDesc (streams.filter isAdaptiveVideoOnlyMp4)

theorem head?_filter_spec (p : Stream → Bool) (l : List Stream) {s : Stream}
    (h : (l.filter p).head? = some s) : s ∈ l ∧ p s = true := by
  have hmem : s ∈ l.filter p := by
    cases hf : l.filter p with
    | nil => rw [hf] at h; simp at h
    | cons x tail =>
      rw [hf] at h
      simp only [List.head?_cons, Option.some.injEq] at h
      rw [← h]
      exact List.mem_cons_self _ _
  exact ⟨(List.mem_filter.mp hmem).1, (List.mem_filter.mp hmem).2⟩

/-- C2: for every resolved video and requested quality, the form-variant
stream selector picks the maximum-resolution progressive mp4 stream when the
quality is `highest` (`none` when no progressive mp4 stream exists), and
otherwise picks a progressive mp4 stream whose resolution label equals the
requested quality exactly, falling back to the maximum-resolution progressive
mp4 stream when none matches. -/
theorem C2_ui_stream_selector (streams : List Stream) (q : String) :
    (q = "highest" →
      (selectStreamUI streams q = none ↔ streams.filter isProgMp4 = []) ∧
      ∀ s, selectStreamUI streams q = some s →
        s ∈ streams ∧ isProgMp4 s = true ∧
        ∀ t ∈ streams, isProgMp4 t = true →
          resValue t.resolution ≤ resValue s.resolution) ∧
    (q ≠ "highest" →
      ((∃ t ∈ streams, isProgMp4 t = true ∧ t.resolution = q) →
        ∃ s, selectStreamUI streams q = some s ∧
          s ∈ streams ∧ isProgMp4 s = true ∧ s.resolution = q) ∧
      ((∀ t ∈ streams, isProgMp4 t = true → t.resolution ≠ q) →
        selectStreamUI streams q = selectStreamUI streams "highest")) := by
  constructor
  · intro hq
    subst hq
    constructor
    · rw [show selectStreamUI streams "highest" = firstDesc (streams.filter isProgMp4) by
        simp [selectStreamUI]]
      exact firstDesc_eq_none_iff
    · intro s hs
      rw [show selectStreamUI streams "highest" = firstDesc (streams.filter isProgMp4) by
        simp [selectStreamUI]] at hs
      exact firstDesc_filter_spec isProgMp4 streams hs
  · intro hq
    constructor
    · rintro ⟨t, ht, hpt, hrt⟩
      have hne : streams.filter (fun s => isProgMp4 s && s.resolution == q) ≠ [] := by
        intro hnil
        have := List.filter_eq_nil_iff.mp hnil t ht
        simp [hpt, hrt] at this
      cases hh : (streams.filter (fun s => isProgMp4 s && s.resolution == q)).head? with
      | none => exact absurd (List.head?_eq_none_iff.mp hh) hne
      | some s =>
        obtain ⟨hmem, hp⟩ := head?_filter_spec _ streams hh
        simp only [Bool.and_eq_true, beq_iff_eq] at hp
        refine ⟨s, ?_, hmem, hp.1, hp.2⟩
        simp [selectStreamUI, hq, hh]
    · intro hnone
      have hnil : streams.filter (fun s => isProgMp4 s && s.resolution == q) = [] := by
        apply List.filter_eq_nil_iff.mpr
        intro t ht
        simp only [Bool.and_eq_true, beq_iff_eq, not_and]
        exact fun hpt => hnone t ht hpt
      simp [selectStreamUI, hq, hnil]

/-- C5: in the CLI batch variant, when no progressive mp4 stream exists (so
both the exact-quality lookup and the progressive fallback find nothing) the
selector falls back to the highest-resolution adaptive, video-only mp4
stream; and whenever some progressive mp4 stream exists the selector returns
a progressive mp4 stream, so the adaptive tier is never reached. -/
theorem C5_cli_adaptive_fallback (streams : List Stream) (q : String) :
    ((∀ t ∈ streams, isProgMp4 t = false) →
      selectStreamCLI streams q = firstDesc (streams.filter isAdaptiveVideoOnlyMp4) ∧
      ∀ s, selectStreamCLI streams q = some s →
        s ∈ streams ∧ isAdaptiveVideoOnlyMp4 s = true ∧
        ∀ t ∈ streams, isAdaptiveVideoOnlyMp4 t = true →
          resValue t.resolution ≤ resValue s.resolution) ∧
    ((∃ t ∈ streams, isProgMp4 t = true) →
      ∃ s, selectStreamCLI streams q = some s ∧ isProgMp4 s = true) := by
  constructor
  · intro hnoprog
    have hnil : streams.filter isProgMp4 = [] :=
      List.filter_eq_nil_iff.mpr (fun t ht => by simp [hnoprog t ht])
    have hexnil : streams.filter (fun s => isProgMp4 s && s.resolution == q) = [] :=
      List.filter_eq_nil_iff.mpr (fun t ht => by simp [hnoprog t ht])
    have heq : selectStreamCLI streams q =
        firstDesc (streams.filter isAdaptiveVideoOnlyMp4) := by
      simp [selectStreamCLI, hexnil, hnil, firstDesc_eq_none_iff.mpr rfl]
    refine ⟨heq, fun s hs => ?_⟩
    rw [heq] at hs
    exact firstDesc_filter_spec isAdaptiveVideoOnlyMp4 streams hs
  · rintro ⟨t, ht, hpt⟩
    cases hh : (streams.filter (fun s => isProgMp4 s && s.resolution == q)).head? with
    | some s =>
      obtain ⟨_, hp⟩ := head?_filter_spec _ streams hh
      simp only [Bool.and_eq_true] at hp
      exact ⟨s, by simp [selectStreamCLI, hh], hp.1⟩
    | none =>
      have hne : streams.filter isProgMp4 ≠ [] := by
        intro hnil
        have := List.filter_eq_nil_iff.mp hnil t ht
        simp [hpt] at this
      cases hfd : firstDesc (streams.filter isProgMp4) with
      | none => exact absurd (firstDesc_eq_none_iff.mp hfd) hne
      | some s =>
        obtain ⟨_, hp, _⟩ := firstDesc_filter_spec isProgMp4 streams hfd
        exact ⟨s, by simp [selectStreamCLI, hh, hfd], hp⟩

/-- Character class kept by the filename cleaner in both variants:
`c.isalnum() or c in (' ', '-', '_')` (alphanumeric modelled on the ASCII
fragment of Python's `str.isalnum`). -/
def pyIsAllowed (c : Char) : Bool :=
  c.isAlphanum || c == ' ' || c == '-' || c == '_'

/-- Whitespace characters removed by Python's `str.rstrip()` (ASCII range). -/
def pyIsSpaceChar (c : Char) : Bool :=
  c == ' ' || c == '\t' || c == '\n' || c == '\x0d' || c == '\x0b' || c == '\x0c'

def keepAllowedL (l : List Char) : List Char :=
  l.filter pyIsAllowed

def rstripL (l : List Char) : List Char :=
  (l.reverse.dropWhile pyIsSpaceChar).reverse

/-- The shared cleaning core,
`"".join(c for c in t if c.isalnum() or c in (' ', '-', '_')).rstrip()`
(yt_download.py line 30, youtube_downloader_ui.py lines 43 and 110). -/
def sanitizeCore (t : String) : String :=
  (rstripL (keepAllowedL t.toList)).asString

/-- The full sanitizer of spec section 4.2 applied to a bare title: clean the
characters, strip trailing whitespace, then append the `.mp4` extension
(yt_download.py line 33, youtube_downloader_ui.py line 44). -/
def sanitize (t : String) : String :=
  sanitizeCore t ++ ".mp4"

theorem dropWhile_same (p : Char → Bool) (l : List Char) :
    (l.dropWhile p).dropWhile p = l.dropWhile p := by
  induction l with
  | nil => rfl
  | cons x xs ih =>
    by_cases hx : p x
    · simp [List.dropWhile_cons, hx, ih]
    · simp [List.dropWhile_cons, hx]

theorem rstripL_idem (l : List Char) : rstripL (rstripL l) = rstripL l := by
  unfold rstripL
  rw [List.reverse_reverse, dropWhile_same]

theorem keepAllowedL_idem (l : List Char) :
    keepAllowedL (keepAllowedL l) = keepAllowedL l := by
  unfold keepAllowedL
  rw [List.filter_filter]
  exact List.filter_congr (fun c _ => by cases h : pyIsAllowed c <;> simp [h])

theorem mem_rstripL {l : List Char} {c : Char} (h : c ∈ rstripL l) : c ∈ l := by
  unfold rstripL at h
  have := List.mem_reverse.mp h
  exact List.mem_reverse.mp ((List.dropWhile_sublist _).mem this)

theorem keepAllowedL_rstripL_keepAllowedL (l : List Char) :
    keepAllowedL (rstripL (keepAllowedL l)) = rstripL (keepAllowedL l) := by
  apply List.filter_eq_self.mpr
  intro c hc
  exact (List.mem_filter.mp (mem_rstripL hc)).2

theorem sanitizeCore_idem (t : String) : sanitizeCore (sanitizeCore t) = sanitizeCore t := by
  unfold sanitizeCore
  have hround : (List.asString (rstripL (keepAllowedL t.toList))).toList
      = rstripL (keepAllowedL t.toList) := rfl
  rw [hround, keepAllowedL_rstripL_keepAllowedL, rstripL_idem]

theorem keepAllowedL_append (a b : List Char) :
    keepAllowedL (a ++ b) = keepAllowedL a ++ keepAllowedL b := by
  simp [keepAllowedL]

theorem rstripL_append_mp4 (a : List Char) :
    rstripL (a ++ ['m', 'p', '4']) = a ++ ['m', 'p', '4'] := by
  unfold rstripL
  rw [List.reverse_append]
  simp [List.dropWhile_cons, pyIsSpaceChar]

/-- C4 counterexample: the sanitizer with its `.mp4` extension is not
idempotent, because the dot is not an allowed character and is stripped on
the second application: `sanitize (sanitize "a") = "amp4.mp4"` while
`sanitize "a" = "a.mp4"`. -/
theorem C4_sanitize_not_idempotent :
    sanitize (sanitize "a") = "amp4.mp4" ∧ sanitize "a" = "a.mp4" ∧
      sanitize (sanitize "a") ≠ sanitize "a" := by
  refine ⟨rfl, rfl, ?_⟩
  decide

/-- C4 amended: the cleaning core (keep alphanumerics, spaces, hyphens and
underscores, then strip trailing whitespace) is idempotent, but the full
sanitizer that appends `.mp4` is not: re-applying it removes the dot, so
`sanitize (sanitize t) = sanitizeCore t ++ "mp4.mp4"` for every `t`, which
differs from `sanitize t = sanitizeCore t ++ ".mp4"`. -/
theorem C4_sanitizer_core_idempotent (t : String) :
    sanitizeCore (sanitizeCore t) = sanitizeCore t ∧
      sanitize (sanitize t) = sanitizeCore t ++ "mp4.mp4" := by
  refine ⟨sanitizeCore_idem t, ?_⟩
  have hlist : (sanitizeCore t ++ ".mp4").toList
      = rstripL (keepAllowedL t.toList) ++ ['.', 'm', 'p', '4'] := by
    show (sanitizeCore t ++ ".mp4").data = rstripL (keepAllowedL t.toList) ++ ['.', 'm', 'p', '4']
    rw [String.data_append]
    rfl
  have hcore : sanitizeCore (sanitizeCore t ++ ".mp4") = sanitizeCore t ++ "mp4" := by
    show (rstripL (keepAllowedL (sanitizeCore t ++ ".mp4").toList)).asString
        = sanitizeCore t ++ "mp4"
    rw [hlist, keepAllowedL_append]
    have hdot : keepAllowedL ['.', 'm', 'p', '4'] = ['m', 'p', '4'] := rfl
    rw [hdot]
    have hself : keepAllowedL (rstripL (keepAllowedL t.toList))
        = rstripL (keepAllowedL t.toList) := keepAllowedL_rstripL_keepAllowedL t.toList
    rw [hself, rstripL_append_mp4]
    show String.mk (rstripL (keepAllowedL t.toList) ++ ['m', 'p', '4'])
        = sanitizeCore t ++ "mp4"
    have : sanitizeCore t ++ "mp4" = String.mk ((sanitizeCore t).data ++ "mp4".data) := by
      apply congrArg String.mk (String.data_append _ _) |>.symm.trans
      rfl
    rw [this]
    rfl
  show sanitizeCore (sanitize t) ++ ".mp4" = sanitizeCore t ++ "mp4.mp4"
  show sanitizeCore (sanitizeCore t ++ ".mp4") ++ ".mp4" = sanitizeCore t ++ "mp4.mp4"
  rw [hcore, String.append_assoc]
  rfl

/-- A resolved video: the fields of a `YouTube` object that the repository
reads (title and available streams). -/
structure Video where
  title : String
  streams : List Stream
deriving DecidableEq, Repr

/-- The external collaborators (pytubefix constructor and `Stream.download`),
modelled as fallible functions; `Except.error` models a raised exception.
`download` receives the stream and the filename passed by the caller and
returns the path of the written file. -/
structure Oracle where
  resolve : String → Except String Video
  download : Stream → String → Except String String

/-- One row of the uploaded CSV as pandas sees it: `url` is `none` for a
missing value (NaN) and `some ""` for an explicitly empty string; `videoId`
is the `Video_id` cell. -/
structure Row where
  url : Option String
  videoId : String
deriving DecidableEq, Repr

/-- The parsed dataframe: whether the `url` and `Video_id` columns exist,
and the rows in file order. -/
structure Table where
  hasUrlCol : Bool
  hasVideoId : Bool
  rows : List Row
deriving DecidableEq, Repr

/-- The running counters and collected output paths of one batch invocation
(youtube_downloader_ui.py lines 85-87). -/
structure BatchState where
  succ : Nat
  failed : Nat
  files : List String
deriving DecidableEq, Repr

/-- `df[df['url'].notna() & (df['url'] != '')]['url'].tolist()`
(youtube_downloader_ui.py line 69): the url values of the rows whose url
cell is present and non-empty, in row order. -/
def validUrls (tbl : Table) : List String :=
  (tbl.rows.filter (fun r => r.url.isSome && r.url != some "")).filterMap (fun r => r.url)

/-- The slice of valid urls actually processed (lines 75-78): all of them
for `"all"` (`none`), otherwise the first `n`. -/
def urlsToDownload (valid : List String) (num : Option Nat) : List String :=
  match num with
  | none => valid
  | some n => valid.take n

/-- `df[df['url'] == url]['Video_id'].iloc[0] if 'Video_id' in df.columns
else f"video_{i+1}"` (line 98): the `Video_id` of the first row whose url
cell equals the current url when the column exists (`none` models the
`IndexError` of `.iloc[0]` on an empty selection), and the ordinal
placeholder otherwise. -/
def lookupVideoId (tbl : Table) (i : Nat) (u : String) : Option String :=
  if tbl.hasVideoId then
    ((tbl.rows.filter (fun r => r.url == some u)).head?).map Row.videoId
  else
    some ("video_" ++ toString (i + 1))

/-- The body of the per-item `try` block (lines 92-115): resolve the video,
read the identifier, select a stream, and when one exists download it under
`f"{video_id}_{safe_title}.mp4"`. `Except.ok (some path)` is a recorded
download, `Except.ok none` is the falsy-stream branch, and `Except.error`
is any exception raised inside the block. -/
def itemAttempt (o : Oracle) (tbl : Table) (q : String) (i : Nat) (u : String) :
    Except String (Option String) := do
  let yt ← o.resolve u
  match lookupVideoId tbl i u with
  | none => Except.error "IndexError: single positional indexer is out-of-bounds"
  | some vid =>
    match selectStreamUI yt.streams q with
    | some stream =>
      let filename := vid ++ "_" ++ sanitizeCore yt.title ++ ".mp4"
      match o.download stream filename with
      | Except.ok path => Except.ok (some path)
      | Except.error e => Except.error e
    | none => Except.ok none

/-- One iteration of the download loop (lines 91-121): a downloaded file is
appended and counted as a success, a missing stream or any caught exception
is counted as a failure. -/
def stepItem (o : Oracle) (tbl : Table) (q : String) (st : BatchState)
    (i : Nat) (u : String) : BatchState :=
  match itemAttempt o tbl q i u with
  | Except.ok (some path) =>
    { st with succ := st.succ + 1, files := st.files ++ [path] }
  | Except.ok none => { st with failed := st.failed + 1 }
  | Except.error _ => { st with failed := st.failed + 1 }

/-- The `for i, url in enumerate(urls_to_download)` loop, carrying the
0-based index. -/
def runLoopAux (o : Oracle) (tbl : Table) (q : String) :
    Nat → BatchState → List String → BatchState
  | _, st, [] => st
  | i, st, u :: rest => runLoopAux o tbl q (i + 1) (stepItem o tbl q st i u) rest

/-- The whole download loop started from zeroed counters (lines 85-121). -/
def runLoop (o : Oracle) (tbl : Table) (q : String) (urls : List String) : BatchState :=
  runLoopAux o tbl q 0 ⟨0, 0, []⟩ urls

/-- What the orchestrator hands back as its downloadable artifact. -/
inductive Packaging where
  | archive (files : List String)
  | single (file : String)
  | noFile
deriving DecidableEq, Repr

/-- The return value of `process_csv_download`: an early error message, or
the final counters, the number of processed requests and the packaging
decision. -/
inductive CsvResult where
  | earlyError (msg : String)
  | done (summary : BatchState) (total : Nat) (pack : Packaging)
deriving DecidableEq, Repr

/-- Packaging decision of lines 124-148: a zip of the collected files when
more than one was downloaded, the single file when exactly one was, and no
file when all downloads failed. -/
def packageOf (st : BatchState) : Packaging :=
  match st.files with
  | [] => Packaging.noFile
  | [f] => Packaging.single f
  | fs => Packaging.archive fs

/-- `process_csv_download(csv_file, quality, num_videos)`
(youtube_downloader_ui.py lines 56-148): the `None`-file check, the `url`
column check, the valid-url filtering, the count slice, the download loop
and the packaging decision. -/
def process_csv_download (o : Oracle) (csvFile : Option Table) (q : String)
    (num : Option Nat) : CsvResult :=
  match csvFile with
  | none => CsvResult.earlyError "Please upload a CSV file"
  | some tbl =>
    if tbl.hasUrlCol = false then
      CsvResult.earlyError "CSV file must contain a url column"
    else if (validUrls tbl).isEmpty then
      CsvResult.earlyError "No valid URLs found in CSV file"
    else
      CsvResult.done (runLoop o tbl q (urlsToDownload (validUrls tbl) num))
        (urlsToDownload (validUrls tbl) num).length
        (packageOf (runLoop o tbl q (urlsToDownload (validUrls tbl) num)))

theorem stepItem_counts (o : Oracle) (tbl : Table) (q : String) (st : BatchState)
    (i : Nat) (u : String) :
    (stepItem o tbl q st i u).succ + (stepItem o tbl q st i u).failed
        = st.succ + st.failed + 1 ∧
      (st.files.length = st.succ →
        (stepItem o tbl q st i u).files.length = (stepItem o tbl q st i u).succ) := by
  cases h : itemAttempt o tbl q i u with
  | ok v =>
    cases v with
    | some p =>
      refine ⟨?_, fun hf => ?_⟩ <;> simp [stepItem, h] <;> omega
    | none =>
      refine ⟨?_, fun hf => ?_⟩ <;> simp [stepItem, h] <;> omega
  | error e =>
    refine ⟨?_, fun hf => ?_⟩ <;> simp [stepItem, h] <;> omega

theorem runLoopAux_counts (o : Oracle) (tbl : Table) (q : String) :
    ∀ (urls : List String) (i : Nat) (st : BatchState),
      st.files.length = st.succ →
      (runLoopAux o tbl q i st urls).succ + (runLoopAux o tbl q i st urls).failed
          = st.succ + st.failed + urls.length ∧
        (runLoopAux o tbl q i st urls).files.length = (runLoopAux o tbl q i st urls).succ := by
  intro urls
  induction urls with
  | nil =>
    intro i st h
    exact ⟨rfl, h⟩
  | cons u rest ih =>
    intro i st h
    have hs := stepItem_counts o tbl q st i u
    have hrec := ih (i + 1) (stepItem o tbl q st i u) (hs.2 h)
    have hcons : runLoopAux o tbl q i st (u :: rest)
        = runLoopAux o tbl q (i + 1) (stepItem o tbl q st i u) rest := rfl
    rw [hcons]
    refine ⟨?_, hrec.2⟩
    rw [hrec.1, hs.1]
    simp [List.length_cons]
    omega

theorem process_done_inv (o : Oracle) (tbl : Table) (q : String) (num : Option Nat)
    (st : BatchState) (total : Nat) (pack : Packaging)
    (h : process_csv_download o (some tbl) q num = CsvResult.done st total pack) :
    st = runLoop o tbl q (urlsToDownload (validUrls tbl) num) ∧
      total = (urlsToDownload (validUrls tbl) num).length ∧
      pack = packageOf st := by
  simp only [process_csv_download] at h
  by_cases hcol : tbl.hasUrlCol = false
  · rw [if_pos hcol] at h
    exact absurd h (by simp)
  · rw [if_neg hcol] at h
    by_cases hemp : (validUrls tbl).isEmpty = true
    · rw [if_pos hemp] at h
      exact absurd h (by simp)
    · rw [if_neg hemp] at h
      simp only [CsvResult.done.injEq] at h
      obtain ⟨h1, h2, h3⟩ := h
      subst h1
      exact ⟨rfl, h2.symm, h3.symm⟩

theorem done_counters (o : Oracle) (tbl : Table) (q : String) (num : Option Nat)
    (st : BatchState) (total : Nat) (pack : Packaging)
    (h : process_csv_download o (some tbl) q num = CsvResult.done st total pack) :
    st.succ + st.failed = total ∧ st.files.length = st.succ := by
  obtain ⟨h1, h2, _⟩ := process_done_inv o tbl q num st total pack h
  subst h1
  have := runLoopAux_counts o tbl q (urlsToDownload (validUrls tbl) num) 0 ⟨0, 0, []⟩ rfl
  rw [h2]
  simpa [runLoop] using this

/-- C1: whenever `process_csv_download` finishes a batch, the success and
failure counters add up to the number of processed requests, and the list of
collected output paths has exactly as many entries as there were successes. -/
theorem C1_batch_counters (o : Oracle) (tbl : Table) (q : String) (num : Option Nat)
    (st : BatchState) (total : Nat) (pack : Packaging)
    (h : process_csv_download o (some tbl) q num = CsvResult.done st total pack) :
    st.succ + st.failed = total ∧ st.files.length = st.succ :=
  done_counters o tbl q num st total pack h

def demoStream : Stream := ⟨true, "mp4", "720p", true, true⟩

def demoVideo : Video := ⟨"Title", [demoStream]⟩

def demoOracle : Oracle :=
  ⟨fun _ => Except.ok demoVideo, fun _ fn => Except.ok fn⟩

def demoTable : Table := ⟨true, true, [⟨some "u1", "v1"⟩, ⟨some "u2", "v2"⟩]⟩

def demoFiles : List String := ["v1_Title.mp4", "v2_Title.mp4"]

def demoState : BatchState := ⟨2, 0, demoFiles⟩

theorem C1_batch_counters_witness :
    demoState.succ + demoState.failed = 2 ∧ demoState.files.length = demoState.succ :=
  C1_batch_counters demoOracle demoTable "720p" none demoState 2
    (Packaging.archive demoFiles) (by decide)

/-- C3: a per-item attempt that does not record a download (a caught
exception from resolution, identifier lookup or the download call, or a
missing stream) leaves exactly one extra failure on the counters and the
loop proceeds with the remaining urls; no per-item error escapes the loop. -/
theorem C3_item_failure_isolated (o : Oracle) (tbl : Table) (q : String)
    (st : BatchState) (i : Nat) (u : String) (rest : List String)
    (h : ∀ p, itemAttempt o tbl q i u ≠ Except.ok (some p)) :
    stepItem o tbl q st i u = { st with failed := st.failed + 1 } ∧
      runLoopAux o tbl q i st (u :: rest)
        = runLoopAux o tbl q (i + 1) { st with failed := st.failed + 1 } rest := by
  have hstep : stepItem o tbl q st i u = { st with failed := st.failed + 1 } := by
    unfold stepItem
    cases hi : itemAttempt o tbl q i u with
    | ok v =>
      cases v with
      | some p => exact absurd hi (h p)
      | none => rfl
    | error e => rfl
  refine ⟨hstep, ?_⟩
  show runLoopAux o tbl q (i + 1) (stepItem o tbl q st i u) rest = _
  rw [hstep]

def failOracle : Oracle :=
  ⟨fun _ => Except.error "HTTP Error 400: Bad Request", fun _ _ => Except.error "io"⟩

theorem C3_item_failure_isolated_witness :
    stepItem failOracle demoTable "720p" ⟨0, 0, []⟩ 0 "u1" = ⟨0, 1, []⟩ ∧
      runLoopAux failOracle demoTable "720p" 0 ⟨0, 0, []⟩ ["u1", "u2"]
        = runLoopAux failOracle demoTable "720p" 1 ⟨0, 1, []⟩ ["u2"] :=
  C3_item_failure_isolated failOracle demoTable "720p" ⟨0, 0, []⟩ 0 "u1" ["u2"]
    (fun p hc => by
      rw [show itemAttempt failOracle demoTable "720p" 0 "u1"
          = Except.error "HTTP Error 400: Bad Request" from rfl] at hc
      exact Except.noConfusion hc)

/-- C8: a finished batch hands back a zip archive of the collected files
exactly when more than one download succeeded, the single output file when
exactly one succeeded, and no file when none succeeded. -/
theorem C8_packaging (o : Oracle) (tbl : Table) (q : String) (num : Option Nat)
    (st : BatchState) (total : Nat) (pack : Packaging)
    (h : process_csv_download o (some tbl) q num = CsvResult.done st total pack) :
    (1 < st.succ → pack = Packaging.archive st.files) ∧
      ((∃ fs, pack = Packaging.archive fs) ↔ 1 < st.succ) ∧
      ((∃ f, pack = Packaging.single f) ↔ st.succ = 1) ∧
      (pack = Packaging.noFile ↔ st.succ = 0) := by
  obtain ⟨hcnt, hlen⟩ := done_counters o tbl q num st total pack h
  obtain ⟨_, _, hpack⟩ := process_done_inv o tbl q num st total pack h
  subst hpack
  cases hf : st.files with
  | nil =>
    rw [hf] at hlen
    simp [packageOf, hf, ← hlen]
  | cons a tail =>
    cases tail with
    | nil =>
      rw [hf] at hlen
      simp [packageOf, hf, ← hlen]
    | cons b tail2 =>
      rw [hf] at hlen
      simp only [List.length_cons] at hlen
      constructor
      · intro _
        simp [packageOf, hf]
      · refine ⟨?_, ?_, ?_⟩ <;> simp [packageOf, hf] <;> omega

theorem C8_packaging_witness :
    (1 < demoState.succ → Packaging.archive demoFiles = Packaging.archive demoState.files) ∧
      ((∃ fs, Packaging.archive demoFiles = Packaging.archive fs) ↔ 1 < demoState.succ) ∧
      ((∃ f, Packaging.archive demoFiles = Packaging.single f) ↔ demoState.succ = 1) ∧
      (Packaging.archive demoFiles = Packaging.noFile ↔ demoState.succ = 0) :=
  C8_packaging demoOracle demoTable "720p" none demoState 2
    (Packaging.archive demoFiles) (by decide)

/-- C9: the valid-url filtering is an order-preserving projection of the
rows that drops exactly the rows whose url cell is missing or blank, every
surviving url is non-blank and comes from some row, and the number of
processed requests of a finished batch counts only those surviving urls
(all of them for `"all"`, else the first `n`). -/
theorem C9_blank_rows_excluded (tbl : Table) :
    validUrls tbl = tbl.rows.filterMap (fun r =>
        match r.url with
        | some u => if u = "" then none else some u
        | none => none) ∧
      (∀ u ∈ validUrls tbl, u ≠ "" ∧ ∃ r ∈ tbl.rows, r.url = some u) ∧
      ∀ (o : Oracle) (q : String) (num : Option Nat) (st : BatchState)
        (total : Nat) (pack : Packaging),
        process_csv_download o (some tbl) q num = CsvResult.done st total pack →
          (num = none → total = (validUrls tbl).length) ∧
          ∀ n, num = some n → total = min n (validUrls tbl).length := by
  have hchar : validUrls tbl = tbl.rows.filterMap (fun r =>
      match r.url with
      | some u => if u = "" then none else some u
      | none => none) := by
    unfold validUrls
    induction tbl.rows with
    | nil => rfl
    | cons r rest ih =>
      cases hu : r.url with
      | none => simp [List.filter_cons, List.filterMap_cons, hu, ih]
      | some u =>
        by_cases he : u = ""
        · subst he
          simp [List.filter_cons, List.filterMap_cons, hu, ih]
        · simp [List.filter_cons, List.filterMap_cons, hu, he, ih]
  refine ⟨hchar, ?_, ?_⟩
  · intro u hu
    rw [hchar] at hu
    obtain ⟨r, hr, hg⟩ := List.mem_filterMap.mp hu
    cases hru : r.url with
    | none => rw [hru] at hg; exact absurd hg (by simp)
    | some v =>
      rw [hru] at hg
      rw [show (match some v with
          | some u => if u = "" then none else some u
          | none => none) = (if v = "" then none else some v) from rfl] at hg
      by_cases he : v = ""
      · rw [if_pos he] at hg
        exact absurd hg (by simp)
      · rw [if_neg he] at hg
        simp only [Option.some.injEq] at hg
        subst hg
        exact ⟨he, r, hr, hru⟩
  · intro o q num st total pack h
    obtain ⟨_, htot, _⟩ := process_done_inv o tbl q num st total pack h
    constructor
    · intro hnum
      subst hnum
      simpa [urlsToDownload] using htot
    · intro n hnum
      subst hnum
      simpa [urlsToDownload, List.length_take] using htot

/-- A CSV with a missing-url row and a blank-url row interleaved between two
valid rows. -/
def blankTable : Table :=
  ⟨true, true, [⟨some "u1", "a"⟩, ⟨none, "x"⟩, ⟨some "", "y"⟩, ⟨some "u2", "b"⟩]⟩

theorem C9_blank_rows_excluded_witness : 2 = (validUrls blankTable).length :=
  ((C9_blank_rows_excluded blankTable).2.2 demoOracle "720p" none
      ⟨2, 0, ["a_Title.mp4", "b_Title.mp4"]⟩ 2
      (Packaging.archive ["a_Title.mp4", "b_Title.mp4"]) (by decide)).1 rfl

/-- C6 counterexample: with the `Video_id` column present and two rows
sharing the same url, the orchestrator prefixes the second row's download
with the first matching row's `Video_id` (`"a"`), not the row's own value
(`"b"`): the claim that each row's own `Video_id` is used fails. -/
def dupTable : Table := ⟨true, true, [⟨some "u", "a"⟩, ⟨some "u", "b"⟩]⟩

theorem C6_row_video_id_counterexample :
    dupTable.rows[1]?.map Row.videoId = some "b" ∧
      lookupVideoId dupTable 1 "u" = some "a" ∧
      itemAttempt demoOracle dupTable "720p" 1 "u" = Except.ok (some "a_Title.mp4") := by
  refine ⟨rfl, rfl, rfl⟩

/-- C6 amended: in the form orchestrator the filename prefix of request `i`
(0-based) on url `u` is the `Video_id` of the first row whose url equals `u`
when the `Video_id` column is present (the row's own value whenever no
earlier row shares its url), and the ordinal placeholder `video_<i+1>` when
the column is absent; the per-item step passes exactly
`prefix ++ "_" ++ cleanedTitle ++ ".mp4"` to the download call. -/
theorem C6_video_id_assignment (tbl : Table) (i : Nat) (u : String) :
    (tbl.hasVideoId = false →
      lookupVideoId tbl i u = some ("video_" ++ toString (i + 1))) ∧
      (tbl.hasVideoId = true →
        lookupVideoId tbl i u
          = ((tbl.rows.filter (fun r => r.url == some u)).head?).map Row.videoId) ∧
      ∀ (o : Oracle) (q : String) (yt : Video) (vid : String) (s : Stream),
        o.resolve u = Except.ok yt → lookupVideoId tbl i u = some vid →
        selectStreamUI yt.streams q = some s →
        itemAttempt o tbl q i u
          = (o.download s (vid ++ "_" ++ sanitizeCore yt.title ++ ".mp4")).map some := by
  refine ⟨?_, ?_, ?_⟩
  · intro hcol
    simp [lookupVideoId, hcol]
  · intro hcol
    simp [lookupVideoId, hcol]
  · intro o q yt vid s hres hvid hsel
    unfold itemAttempt
    rw [hres]
    show (match lookupVideoId tbl i u with
      | none => Except.error "IndexError: single positional indexer is out-of-bounds"
      | some vid =>
        match selectStreamUI yt.streams q with
        | some stream =>
          match o.download stream (vid ++ "_" ++ sanitizeCore yt.title ++ ".mp4") with
          | Except.ok path => Except.ok (some path)
          | Except.error e => Except.error e
        | none => Except.ok none)
      = (o.download s (vid ++ "_" ++ sanitizeCore yt.title ++ ".mp4")).map some
    rw [hvid, hsel]
    show (match o.download s (vid ++ "_" ++ sanitizeCore yt.title ++ ".mp4") with
        | Except.ok path => Except.ok (some path)
        | Except.error e => Except.error e)
      = (o.download s (vid ++ "_" ++ sanitizeCore yt.title ++ ".mp4")).map some
    cases hdl : o.download s (vid ++ "_" ++ sanitizeCore yt.title ++ ".mp4") with
    | ok path => rfl
    | error e => rfl

theorem C6_video_id_assignment_witness :
    itemAttempt demoOracle demoTable "720p" 0 "u1"
      = (demoOracle.download demoStream
          ("v1" ++ "_" ++ sanitizeCore demoVideo.title ++ ".mp4")).map some :=
  (C6_video_id_assignment demoTable 0 "u1").2.2 demoOracle "720p" demoVideo "v1" demoStream
    rfl rfl rfl

def cli360 : Stream := ⟨true, "mp4", "360p", true, true⟩

def cli480 : Stream := ⟨true, "mp4", "480p", true, true⟩

/-- An adaptive video-only 1080p mp4 stream, as YouTube Shorts expose. -/
def shortStream : Stream := ⟨false, "mp4", "1080p", true, false⟩

theorem C2_ui_stream_selector_witness :
    ∃ s, selectStreamUI [cli360, cli480] "480p" = some s ∧
      s ∈ [cli360, cli480] ∧ isProgMp4 s = true ∧ s.resolution = "480p" :=
  ((C2_ui_stream_selector [cli360, cli480] "480p").2 (by decide)).1
    ⟨cli480, by decide, by decide, rfl⟩

theorem C5_cli_adaptive_fallback_witness :
    selectStreamCLI [shortStream] "720p"
      = firstDesc ([shortStream].filter isAdaptiveVideoOnlyMp4) :=
  ((C5_cli_adaptive_fallback [shortStream] "720p").1 (by decide)).1

/-- The body of `download_video`'s `try` block (yt_download.py lines 9-35):
resolve, select a stream through the three CLI tiers, build the cleaned
`f"{video_id}_{yt.title}"` filename, and call `stream.download`.
`Except.error` models a raised exception; calling `.download` on the `None`
stream raises `AttributeError`. -/
def download_videoE (o : Oracle) (url quality vid : String) : Except String Bool := do
  let yt ← o.resolve url
  match selectStreamCLI yt.streams quality with
  | none =>
    Except.error "AttributeError: NoneType object has no attribute download"
  | some s => do
    let _ ← o.download s (sanitizeCore (vid ++ "_" ++ yt.title) ++ ".mp4")
    Except.ok true

/-- `download_video(url, quality, download_path, video_id)` (yt_download.py
lines 7-39): the `try` body wrapped in the `except` handler that prints the
error and returns `False`. -/
def download_video (o : Oracle) (url quality vid : String) : Bool :=
  match download_videoE o url quality vid with
  | Except.ok b => b
  | Except.error _ => false

/-- C10: `download_video` always returns a boolean — every exception of the
body (resolution failure, the `AttributeError` from downloading the absent
stream, a download failure) is caught and turned into `False`; in
particular, when no stream is found at any fallback tier the body raises
internally and the function returns `False`. -/
theorem C10_download_video_total (o : Oracle) (url quality vid : String) :
    (download_video o url quality vid = true ∨ download_video o url quality vid = false) ∧
      (∀ e, o.resolve url = Except.error e → download_video o url quality vid = false) ∧
      (∀ yt, o.resolve url = Except.ok yt → selectStreamCLI yt.streams quality = none →
        download_videoE o url quality vid
            = Except.error "AttributeError: NoneType object has no attribute download" ∧
          download_video o url quality vid = false) ∧
      ∀ yt s e, o.resolve url = Except.ok yt →
        selectStreamCLI yt.streams quality = some s →
        o.download s (sanitizeCore (vid ++ "_" ++ yt.title) ++ ".mp4") = Except.error e →
        download_video o url quality vid = false := by
  refine ⟨?_, ?_, ?_, ?_⟩
  · cases h : download_video o url quality vid
    · exact Or.inr rfl
    · exact Or.inl rfl
  · intro e hres
    simp [download_video, download_videoE, hres, Bind.bind, Except.bind]
  · intro yt hres hsel
    have hbody : download_videoE o url quality vid
        = Except.error "AttributeError: NoneType object has no attribute download" := by
      simp [download_videoE, hres, hsel, Bind.bind, Except.bind]
    exact ⟨hbody, by simp [download_video, hbody]⟩
  · intro yt s e hres hsel hdl
    have hbody : download_videoE o url quality vid = Except.error e := by
      simp [download_videoE, hres, hsel, hdl, Bind.bind, Except.bind]
    simp [download_video, hbody]

/-- A video with no usable stream at any tier (audio-only offering). -/
def audioOnlyVideo : Video := ⟨"Song", [⟨false, "mp4", "", false, true⟩]⟩

def audioOnlyOracle : Oracle :=
  ⟨fun _ => Except.ok audioOnlyVideo, fun _ fn => Except.ok fn⟩

theorem C10_download_video_total_witness :
    download_videoE audioOnlyOracle "u" "720p" "v1"
        = Except.error "AttributeError: NoneType object has no attribute download" ∧
      download_video audioOnlyOracle "u" "720p" "v1" = false :=
  (C10_download_video_total audioOnlyOracle "u" "720p" "v1").2.2.1
    audioOnlyVideo rfl rfl

/-- Python's `str.strip()` with no argument (ASCII whitespace range):
drop leading and trailing whitespace. -/
def pyStrip (s : String) : String :=
  (((s.toList.dropWhile pyIsSpaceChar).reverse.dropWhile pyIsSpaceChar).reverse).asString

/-- One row as `csv.DictReader` yields it in the CLI script: `none` in a
field means the key is absent from the row dict. -/
structure CLIRow where
  url : Option String
  videoId : Option String
deriving DecidableEq, Repr

/-- One entry of `video_data` (yt_download.py lines 56-61). -/
structure CLIVideo where
  videoId : String
  url : String
deriving DecidableEq, Repr

/-- The row scan of yt_download.py lines 56-61: keep rows that have a `url`
key with non-blank value, recording `row.get('Video_id', '')` and the
stripped url. -/
def extractVideoData (rows : List CLIRow) : List CLIVideo :=
  rows.filterMap (fun r =>
    match r.url with
    | some u => if pyStrip u = "" then none else some ⟨r.videoId.getD "", pyStrip u⟩
    | none => none)

def digitsVal (cs : List Char) : Nat :=
  cs.foldl (fun n c => n * 10 + (c.toNat - 48)) 0

/-- Python's `int()` on an already-stripped string: an optional sign
followed by at least one digit (digit-group underscores are not modelled);
`none` is the `ValueError`. -/
def pyInt (s : String) : Option Int :=
  match s.toList with
  | [] => none
  | '-' :: ds =>
    if !ds.isEmpty && ds.all Char.isDigit then some (-(digitsVal ds : Int)) else none
  | '+' :: ds =>
    if !ds.isEmpty && ds.all Char.isDigit then some ((digitsVal ds : Int)) else none
  | ds =>
    if ds.all Char.isDigit then some ((digitsVal ds : Int)) else none

/-- Python's `str.lower()` on the ASCII range: lower-case each character. -/
def pyLower (s : String) : String :=
  (s.toList.map Char.toLower).asString

/-- One round of the count prompt (yt_download.py lines 74-87): `'all'`
selects every video, otherwise the input must parse as an integer between 1
and the number of found videos; `none` re-prompts. -/
def parseCount (maxV : Nat) (s : String) : Option Nat :=
  let t := pyStrip s
  if pyLower t = "all" then some maxV
  else
    match pyInt t with
    | none => none
    | some n => if 1 ≤ n ∧ n ≤ (maxV : Int) then some n.toNat else none

/-- One round of the quality prompt (yt_download.py lines 91-99): `highest`
or `best` normalise to `highest`, the five fixed labels are accepted
verbatim, anything else re-prompts. -/
def parseQuality (s : String) : Option String :=
  let q := pyStrip s
  if pyLower q = "highest" || pyLower q = "best" then some "highest"
  else if q = "720p" || q = "480p" || q = "360p" || q = "240p" || q = "144p" then some q
  else none

/-- A `while True` prompt loop over a script of input lines: each `input()`
consumes one line, an invalid line prints a message and loops, a valid line
breaks with the parsed value and the remaining lines; `none` models running
out of input (`EOFError`). -/
def promptLoop (parse : String → Option α) : List String → Option (α × List String)
  | [] => none
  | s :: rest =>
    match parse s with
    | some v => some (v, rest)
    | none => promptLoop parse rest

/-- How a run of the CLI `main` ends, up to the point where downloading
would start. -/
inductive MainOutcome where
  | fileNotFound
  | readFailed (msg : String)
  | noValidUrls
  | outOfInput
  | ran (numVideos : Nat) (quality : String)
deriving DecidableEq, Repr

/-- The interactive prefix of `main` (yt_download.py lines 41-99): one
`input()` for the CSV path followed by an existence check that returns on
failure, the CSV scan, and the two re-prompting loops for count and
quality. -/
def mainPrompts (pathOk : String → Bool)
    (readCsv : String → Except String (List CLIRow)) :
    List String → MainOutcome
  | [] => MainOutcome.outOfInput
  | path :: rest =>
    if pathOk (pyStrip path) = false then MainOutcome.fileNotFound
    else
      match readCsv (pyStrip path) with
      | Except.error e => MainOutcome.readFailed e
      | Except.ok rows =>
        if (extractVideoData rows).isEmpty then MainOutcome.noValidUrls
        else
          match promptLoop (parseCount (extractVideoData rows).length) rest with
          | none => MainOutcome.outOfInput
          | some (n, rest2) =>
            match promptLoop parseQuality rest2 with
            | none => MainOutcome.outOfInput
            | some (q, _) => MainOutcome.ran n q

def goodCsvTable : List CLIRow := [⟨some "https vid", some "v1"⟩]

def demoPathOk : String → Bool := fun s => s == "good.csv"

def demoReadCsv : String → Except String (List CLIRow) := fun _ => Except.ok goodCsvTable

/-- C7 counterexample: the CSV-path prompt does not re-prompt. With a script
whose first line names a missing file and whose very next line names an
existing one, the run terminates with the file-not-found message instead of
consuming the later valid input; the same script starting at the valid line
runs to completion, and the count and quality prompts do skip invalid
lines. -/
theorem C7_path_prompt_counterexample :
    mainPrompts demoPathOk demoReadCsv ["missing.csv", "good.csv", "all", "720p"]
        = MainOutcome.fileNotFound ∧
      mainPrompts demoPathOk demoReadCsv ["good.csv", "zero", "all", "oops", "720p"]
        = MainOutcome.ran 1 "720p" := by
  exact ⟨rfl, rfl⟩

/-- C7 amended: of the three interactive prompts of the CLI batch script,
the count prompt and the quality prompt re-prompt on invalid input (an
invalid line is consumed and the loop continues with the next line), but the
input-file path prompt is asked exactly once: when the given path does not
exist the run terminates with a file-not-found outcome regardless of any
further input. -/
theorem C7_reprompt_behaviour :
    (∀ (maxV : Nat) (s : String) (rest : List String), parseCount maxV s = none →
      promptLoop (parseCount maxV) (s :: rest) = promptLoop (parseCount maxV) rest) ∧
      (∀ (s : String) (rest : List String), parseQuality s = none →
        promptLoop parseQuality (s :: rest) = promptLoop parseQuality rest) ∧
      ∀ (pathOk : String → Bool) (readCsv : String → Except String (List CLIRow))
        (path : String) (rest : List String), pathOk (pyStrip path) = false →
        mainPrompts pathOk readCsv (path :: rest) = MainOutcome.fileNotFound := by
  refine ⟨?_, ?_, ?_⟩
  · intro maxV s rest h
    simp [promptLoop, h]
  · intro s rest h
    simp [promptLoop, h]
  · intro pathOk readCsv path rest h
    simp [mainPrompts, h]

theorem C7_reprompt_behaviour_witness :
    promptLoop (parseCount 1) ("zero" :: ["all"]) = promptLoop (parseCount 1) ["all"] ∧
      mainPrompts demoPathOk demoReadCsv ("missing.csv" :: ["good.csv"])
        = MainOutcome.fileNotFound :=
  ⟨C7_reprompt_behaviour.1 1 "zero" ["all"] rfl,
    C7_reprompt_behaviour.2.2 demoPathOk demoReadCsv "missing.csv" ["good.csv"] rfl⟩

end Yt
